import Mathlib

/-!
Verification of the wizmon currency library (`wizmon/__init__.py`).

The embedding below translates the Python source into Lean:

* `WizardMoney` is the class's field record (`_galleons`, `_sickles`,
  `_knuts`); Python integers are `Int`.
* Python floats are modelled as exact fractions (`PyFloat`, an integer
  numerator over a nonzero integer denominator); `int(x)` on a float is
  truncation toward zero (`Int.tdiv` of the exact fraction); Python's
  `//` and `%` are floor division (`Int.fdiv` / `Int.fmod`).
* Operator arguments are a tagged union `PyVal` (int, float, str,
  WizardMoney, or any other object).
* Raised exceptions are `Except PyError`; `PyError` lists exactly the
  exception classes the source can raise, plus `unmodelled` marking what
  falls outside an integer-field embedding: an irrational power, and the
  integer-field *view* of in-place modulo by a non-whole float - that
  case raises nothing in the source and is modelled exactly (receiver
  mutated, fractional knuts field, `self` returned) by `wm_imod_fields`.
* In-place operators return an `IPResult`: the returned value, the
  receiver's final field state (also on failure), and whether the returned
  object is the receiver itself (`return self`) or a fresh instance.
-/

/-- Currency constants from the top of the module. -/
def KNUTS_PER_SICKLE : Int := 29

def SICKLES_PER_GALLEON : Int := 17

def KNUTS_PER_GALLEON : Int := SICKLES_PER_GALLEON * KNUTS_PER_SICKLE

/-- The field record of the `WizardMoney` class. -/
structure WizardMoney where
  galleons : Int
  sickles : Int
  knuts : Int
deriving DecidableEq, Repr

/-- A Python float, modelled as the exact fraction `num / den`.  (Every
IEEE float is such a fraction; the embedding treats float arithmetic as
exact.) -/
structure PyFloat where
  num : Int
  den : Int
  den_nz : den ≠ 0
deriving DecidableEq, Repr

/-- `f % 1 == 0`: the float is a whole number. -/
def PyFloat.isWhole (f : PyFloat) : Bool := Int.emod f.num f.den == 0

/-- `f == 0`. -/
def PyFloat.isZero (f : PyFloat) : Bool := f.num == 0

/-- Python `int(a * f)` for an integer `a` and float `f`: the exact
product truncated toward zero. -/
def truncMulF (a : Int) (f : PyFloat) : Int := Int.tdiv (a * f.num) f.den

/-- Exception classes raisable by the source module, plus `unmodelled` for
behavior outside the integer-field embedding (see file header). -/
inductive PyError where
  | valueError (msg : String)
  | typeError (msg : String)
  | nameError (msg : String)
  | zeroDivisionError (msg : String)
  | unmodelled (msg : String)
deriving DecidableEq, Repr

/-- Error classes for classifying a failure.  `formatError` is modelled
from the spec: the spec's error taxonomy (§7) names a distinct
`FormatError` class for malformed quantity strings; the source defines no
such class (it raises the built-in `ValueError`), so no `PyError`
constructor maps to it. -/
inductive PyErrCls where
  | valueError
  | typeError
  | nameError
  | zeroDivisionError
  | formatError
  | unmodelled
deriving DecidableEq, Repr

def PyError.cls : PyError → PyErrCls
  | .valueError _ => .valueError
  | .typeError _ => .typeError
  | .nameError _ => .nameError
  | .zeroDivisionError _ => .zeroDivisionError
  | .unmodelled _ => .unmodelled

/-- The class of the exception a computation raised, if it raised one. -/
def errCls {α : Type} : Except PyError α → Option PyErrCls
  | .error e => some e.cls
  | .ok _ => none

def isErr {α : Type} : Except PyError α → Bool
  | .error _ => true
  | .ok _ => false

/-- A Python value that can be passed as an operator or parser argument:
an int, a float (exact fraction), a string (as its character list), a
`WizardMoney` object, or any other object (tagged by an arbitrary id). -/
inductive PyVal where
  | intV (n : Int)
  | floatV (f : PyFloat)
  | strV (s : List Char)
  | wmV (w : WizardMoney)
  | objV (id : Nat)
deriving DecidableEq, Repr

/-! ### The parser (`parse`) -/

/-- Whitespace for Python `str.strip()` / `int()` (ASCII scope). -/
def isSpaceChar (c : Char) : Bool :=
  c == ' ' || c == '\t' || c == '\n' || c == '\r' || c == '\x0b' || c == '\x0c'

/-- Python `s.split(',')`: split at every comma, keeping empty pieces. -/
def splitOnComma : List Char → List (List Char)
  | [] => [[]]
  | ',' :: rest => [] :: splitOnComma rest
  | c :: rest =>
    match splitOnComma rest with
    | h :: t => (c :: h) :: t
    | [] => [[c]]

/-- Python `s.strip()`. -/
def trimChars (l : List Char) : List Char :=
  ((l.dropWhile isSpaceChar).reverse.dropWhile isSpaceChar).reverse

/-- No two consecutive underscores (CPython rejects `1__0`). -/
def noDoubleUnderscore : List Char → Bool
  | '_' :: '_' :: _ => false
  | _ :: rest => noDoubleUnderscore rest
  | [] => true

/-- A valid digit core for a CPython integer literal: nonempty, only
digits and underscores, starts and ends with a digit, no `__`. -/
def validDigitCore (l : List Char) : Bool :=
  (match l.head? with | some c => c.isDigit | none => false) &&
  (match l.getLast? with | some c => c.isDigit | none => false) &&
  l.all (fun c => c.isDigit || c == '_') &&
  noDoubleUnderscore l

/-- Numeric value of a digit-and-underscore core. -/
def digitsToInt (l : List Char) : Int :=
  l.foldl (fun acc c => if c == '_' then acc else acc * 10 + ((c.toNat : Int) - 48)) 0

/-- Models CPython `int(s)` on an ASCII string: surrounding whitespace is
stripped, an optional sign precedes the digits, underscores are allowed
between digits.  Returns `none` where CPython raises `ValueError`. -/
def pyInt? (s : List Char) : Option Int :=
  match trimChars s with
  | '+' :: rest => if validDigitCore rest then some (digitsToInt rest) else none
  | '-' :: rest => if validDigitCore rest then some (-(digitsToInt rest)) else none
  | l => if validDigitCore l then some (digitsToInt l) else none

/-- The comma-split, whitespace-trimmed pieces of a quantity string
(`quantity.split(',')` with `q.strip()` applied to each piece). -/
def pieces (s : List Char) : List (List Char) :=
  (splitOnComma s).map trimChars

/-- `quantity.endswith(('g', 's', 'k'))`. -/
def endsGSK (q : List Char) : Bool :=
  match q.getLast? with
  | some c => c == 'g' || c == 's' || c == 'k'
  | none => false

/-- One iteration of the `for quantity in quantities` loop in `parse`: if
the piece does not end in `g`/`s`/`k`, the code requires `int(piece)` to
succeed and appends `'k'`; the units are then the last character and the
amount is `int` of the rest.  (In the append-`k` branch the re-parsed
prefix is the original piece itself, so the amount is the already-parsed
integer.)  Both failure branches raise the built-in `ValueError`. -/
def parsePiece (q : List Char) : Except PyError (Char × Int) :=
  if endsGSK q then
    match pyInt? q.dropLast with
    | none => .error (.valueError "quantity must be a str of a number that ends with g, s, or k")
    | some n => .ok (q.getLastD ' ', n)
  else
    match pyInt? q with
    | none => .error (.valueError "quantity must end with g, s, k, or no units")
    | some n => .ok ('k', n)

/-- The accumulation loop of `parse` over the split pieces. -/
def parseLoop : List (List Char) → Int → Int → Int → Except PyError WizardMoney
  | [], g, s, k => .ok ⟨g, s, k⟩
  | q :: rest, g, s, k =>
    match parsePiece q with
    | .error e => .error e
    | .ok (u, n) =>
      parseLoop rest (if u = 'g' then g + n else g)
        (if u = 's' then s + n else s) (if u = 'k' then k + n else k)

/-- `parse` on a string argument. -/
def parseStr (s : List Char) : Except PyError WizardMoney :=
  parseLoop (pieces s) 0 0 0

/-- Python `int(f)` for a float `f`: truncation toward zero of the exact
fraction. -/
def truncF (f : PyFloat) : Int := Int.tdiv f.num f.den

/-- `parse(quantity)`: strings are split and accumulated; ints and floats
are knut counts (floats truncated by `int()`); anything else raises
`TypeError`. -/
def parsePy (v : PyVal) : Except PyError WizardMoney :=
  match v with
  | .strV s => parseStr s
  | .intV n => .ok ⟨0, 0, n⟩
  | .floatV f => .ok ⟨0, 0, truncF f⟩
  | _ => .error (.typeError "quantity must be str, int, or float")

/-! ### `value` and the conversions -/

/-- The read-only `value` property:
`(galleons * 493) + (sickles * 29) + knuts`. -/
def wmValue (w : WizardMoney) : Int :=
  w.galleons * KNUTS_PER_GALLEON + w.sickles * KNUTS_PER_SICKLE + w.knuts

/-- `asKnuts()`: a new object with everything converted to knuts. -/
def asKnuts (w : WizardMoney) : WizardMoney :=
  ⟨0, 0, w.knuts + w.galleons * KNUTS_PER_GALLEON + w.sickles * KNUTS_PER_SICKLE⟩

/-- `asSickles()`: a new object with everything converted to sickles,
remaining change left as knuts. -/
def asSickles (w : WizardMoney) : WizardMoney :=
  ⟨0, w.sickles + w.galleons * SICKLES_PER_GALLEON + Int.fdiv w.knuts KNUTS_PER_SICKLE,
    Int.fmod w.knuts KNUTS_PER_SICKLE⟩

/-- `asGalleons()`: knuts are first converted to sickles, then sickles to
galleons, each step with floor division and remainder. -/
def asGalleons (w : WizardMoney) : WizardMoney :=
  let sickles := w.sickles + Int.fdiv w.knuts KNUTS_PER_SICKLE
  let knuts := Int.fmod w.knuts KNUTS_PER_SICKLE
  let galleons := w.galleons + Int.fdiv sickles SICKLES_PER_GALLEON
  let sickles2 := Int.fmod sickles SICKLES_PER_GALLEON
  ⟨galleons, sickles2, knuts⟩

/-- `convertToKnuts()`: the in-place variant of `asKnuts` (final field
state of the receiver). -/
def convertToKnuts (w : WizardMoney) : WizardMoney :=
  ⟨0, 0, w.knuts + w.galleons * KNUTS_PER_GALLEON + w.sickles * KNUTS_PER_SICKLE⟩

/-- `convertToSickles()`: the in-place variant of `asSickles`. -/
def convertToSickles (w : WizardMoney) : WizardMoney :=
  ⟨0, w.sickles + w.galleons * SICKLES_PER_GALLEON + Int.fdiv w.knuts KNUTS_PER_SICKLE,
    Int.fmod w.knuts KNUTS_PER_SICKLE⟩

/-- `convertToGalleons()`: the in-place variant of `asGalleons`; the
mutation order in the source gives the same dataflow as `asGalleons`. -/
def convertToGalleons (w : WizardMoney) : WizardMoney :=
  let sickles := w.sickles + Int.fdiv w.knuts KNUTS_PER_SICKLE
  let knuts := Int.fmod w.knuts KNUTS_PER_SICKLE
  let galleons := w.galleons + Int.fdiv sickles SICKLES_PER_GALLEON
  let sickles2 := Int.fmod sickles SICKLES_PER_GALLEON
  ⟨galleons, sickles2, knuts⟩

theorem convertToGalleons_eq_asGalleons (w : WizardMoney) :
    convertToGalleons w = asGalleons w := rfl

/-! ### Binary operators -/

/-- Shared prologue of `__add__`, `__iadd__`, `__sub__`, `__rsub__`,
`__isub__`: a str/int/float operand is first run through `parse`; a
`WizardMoney` operand passes through; any other object reaches
`raise TypeException(...)`, and since the name `TypeException` is not
defined anywhere, evaluating it raises the built-in `NameError`. -/
def coerceToWM (other : PyVal) : Except PyError WizardMoney :=
  match other with
  | .strV s => parseStr s
  | .intV n => .ok ⟨0, 0, n⟩
  | .floatV f => .ok ⟨0, 0, truncF f⟩
  | .wmV w => .ok w
  | .objV _ => .error (.nameError "name TypeException is not defined")

/-- `__add__`: componentwise sum (written `other + self` in the source). -/
def wm_add (self : WizardMoney) (other : PyVal) : Except PyError WizardMoney :=
  match coerceToWM other with
  | .error e => .error e
  | .ok o => .ok ⟨o.galleons + self.galleons, o.sickles + self.sickles, o.knuts + self.knuts⟩

/-- `__sub__`: componentwise difference `self - other`. -/
def wm_sub (self : WizardMoney) (other : PyVal) : Except PyError WizardMoney :=
  match coerceToWM other with
  | .error e => .error e
  | .ok o => .ok ⟨self.galleons - o.galleons, self.sickles - o.sickles, self.knuts - o.knuts⟩

/-- `__mul__`: an int, or a float with `other % 1 == 0` (a whole float),
multiplies componentwise with `int()` truncation; a non-whole float
multiplies the total `value` and normalizes via `convertToGalleons()`;
any other operand raises `ValueError`. -/
def wm_mul (self : WizardMoney) (other : PyVal) : Except PyError WizardMoney :=
  match other with
  | .intV n => .ok ⟨self.galleons * n, self.sickles * n, self.knuts * n⟩
  | .floatV f =>
    if f.isWhole then
      .ok ⟨truncMulF self.galleons f, truncMulF self.sickles f, truncMulF self.knuts f⟩
    else
      .ok (convertToGalleons ⟨0, 0, truncMulF (wmValue self) f⟩)
  | _ => .error (.valueError "WizardMoney objects can only be multiplied by an int or float")

/-- Python `int(a // other)` for an integer `a`: floor division; division
by zero raises `ZeroDivisionError`; a non-numeric divisor raises the
built-in `TypeError` from the `//` itself. -/
def pyFloorDiv (a : Int) (v : PyVal) : Except PyError Int :=
  match v with
  | .intV n =>
    if n = 0 then .error (.zeroDivisionError "integer division or modulo by zero")
    else .ok (Int.fdiv a n)
  | .floatV f =>
    if f.isZero then .error (.zeroDivisionError "float floor division by zero")
    else .ok (Int.fdiv (a * f.den) f.num)
  | _ => .error (.typeError "unsupported operand type for floor division")

/-- Python `a % other` for an integer `a`: floor-style remainder (same
sign as the divisor), returned as an exact fraction; a zero divisor
raises `ZeroDivisionError`; a non-numeric divisor raises the built-in
`TypeError`. -/
def pyMod (a : Int) (v : PyVal) : Except PyError PyFloat :=
  match v with
  | .intV n =>
    if n = 0 then .error (.zeroDivisionError "integer division or modulo by zero")
    else .ok ⟨Int.fmod a n, 1, one_ne_zero⟩
  | .floatV f =>
    if f.isZero then .error (.zeroDivisionError "float modulo")
    else .ok ⟨a * f.den - f.num * Int.fdiv (a * f.den) f.num, f.den, f.den_nz⟩
  | _ => .error (.typeError "unsupported operand type for modulo")

/-- Python `int(a ** e)` for integers `a`, `e`: a negative exponent gives
the exact reciprocal truncated toward zero; `0 ** e` with `e < 0` raises
`ZeroDivisionError`. -/
def pyPowInt (a : Int) (e : Int) : Except PyError Int :=
  if a = 0 ∧ e < 0 then .error (.zeroDivisionError "zero to a negative power")
  else if 0 ≤ e then .ok (a ^ e.toNat)
  else .ok (Int.tdiv 1 (a ^ (-e).toNat))

/-- Python `int(a ** other)` for an integer `a`: integer and whole-float
exponents are exact; a non-numeric exponent raises the built-in
`TypeError`; a non-integral float exponent yields an irrational real,
outside this embedding. -/
def pyPow (a : Int) (v : PyVal) : Except PyError Int :=
  match v with
  | .intV n => pyPowInt a n
  | .floatV f =>
    if f.isWhole then pyPowInt a (truncF f)
    else .error (.unmodelled "non-integral float exponent")
  | _ => .error (.typeError "unsupported operand type for power")

/-- `__floordiv__`: the divisor type is checked first (`ValueError`
otherwise), then `value // other` is truncated to knuts and normalized
with `convertToGalleons()`. -/
def wm_floordiv (self : WizardMoney) (other : PyVal) : Except PyError WizardMoney :=
  match other with
  | .intV _ | .floatV _ =>
    match pyFloorDiv (wmValue self) other with
    | .error e => .error e
    | .ok n => .ok (convertToGalleons ⟨0, 0, n⟩)
  | _ => .error (.valueError "divisor must be int or float")

/-- `__truediv__` just calls `__floordiv__`. -/
def wm_truediv (self : WizardMoney) (other : PyVal) : Except PyError WizardMoney :=
  wm_floordiv self other

/-- `__mod__`: no explicit operand-type check; `value % other` is
computed (the `%` itself raising `TypeError` for non-numbers), passed
through the constructor's `int()`, and normalized. -/
def wm_mod (self : WizardMoney) (other : PyVal) : Except PyError WizardMoney :=
  match pyMod (wmValue self) other with
  | .error e => .error e
  | .ok m => .ok (convertToGalleons ⟨0, 0, truncF m⟩)

/-- `__divmod__`: the pair `(self // other, self % other)`, evaluated left
to right. -/
def wm_divmod (self : WizardMoney) (other : PyVal) :
    Except PyError (WizardMoney × WizardMoney) :=
  match wm_floordiv self other with
  | .error e => .error e
  | .ok q =>
    match wm_mod self other with
    | .error e => .error e
    | .ok r => .ok (q, r)

/-- `__pow__`: the exponent type is checked first (`ValueError`
otherwise), then `int(value ** other)` is normalized. -/
def wm_pow (self : WizardMoney) (other : PyVal) : Except PyError WizardMoney :=
  match other with
  | .intV _ | .floatV _ =>
    match pyPow (wmValue self) other with
    | .error e => .error e
    | .ok p => .ok (convertToGalleons ⟨0, 0, p⟩)
  | _ => .error (.valueError "exponent must be int or float")

/-! ### In-place operators -/

deriving instance DecidableEq for Except

/-- Outcome of an in-place operator: the value the method returns (or the
exception it raises), the receiver's field state afterwards (also when the
operation failed mid-way), and whether the returned object is the receiver
itself (`return self`) rather than a fresh instance. -/
structure IPResult where
  ret : Except PyError WizardMoney
  recv : WizardMoney
  retIsRecv : Bool
deriving DecidableEq, Repr

/-- `true` when the in-place operation raised a (modelled) exception. -/
def failsModelled (r : IPResult) : Bool :=
  match r.ret with
  | .error e => e.cls != PyErrCls.unmodelled
  | .ok _ => false

/-- `__iadd__`: operand coerced (possibly failing) before any mutation,
then the three fields are incremented and `self` is returned. -/
def wm_iadd (self : WizardMoney) (other : PyVal) : IPResult :=
  match coerceToWM other with
  | .error e => ⟨.error e, self, false⟩
  | .ok o =>
    let r : WizardMoney :=
      ⟨self.galleons + o.galleons, self.sickles + o.sickles, self.knuts + o.knuts⟩
    ⟨.ok r, r, true⟩

/-- `__isub__`: like `__iadd__` with subtraction. -/
def wm_isub (self : WizardMoney) (other : PyVal) : IPResult :=
  match coerceToWM other with
  | .error e => ⟨.error e, self, false⟩
  | .ok o =>
    let r : WizardMoney :=
      ⟨self.galleons - o.galleons, self.sickles - o.sickles, self.knuts - o.knuts⟩
    ⟨.ok r, r, true⟩

/-- `__imul__`: for an int or whole float the fields are scaled in place
and `self` is returned; for a non-whole float the source builds a fresh
normalized object and returns it, leaving the receiver untouched; other
operand types raise `ValueError` before any mutation. -/
def wm_imul (self : WizardMoney) (other : PyVal) : IPResult :=
  match other with
  | .intV n =>
    let r : WizardMoney := ⟨self.galleons * n, self.sickles * n, self.knuts * n⟩
    ⟨.ok r, r, true⟩
  | .floatV f =>
    if f.isWhole then
      let r : WizardMoney :=
        ⟨truncMulF self.galleons f, truncMulF self.sickles f, truncMulF self.knuts f⟩
      ⟨.ok r, r, true⟩
    else
      ⟨.ok (convertToGalleons ⟨0, 0, truncMulF (wmValue self) f⟩), self, false⟩
  | _ => ⟨.error (.valueError "WizardMoney objects can only be multiplied by an int or float"), self, false⟩

/-- `__ifloordiv__`: the source saves `value`, zeroes galleons and
sickles, and only then computes `int(value // other)` - so when the
division fails (bad type or zero divisor) the receiver is left with
galleons and sickles already zeroed and the old knuts. -/
def wm_ifloordiv (self : WizardMoney) (other : PyVal) : IPResult :=
  match pyFloorDiv (wmValue self) other with
  | .error e => ⟨.error e, ⟨0, 0, self.knuts⟩, false⟩
  | .ok n =>
    let r := convertToGalleons ⟨0, 0, n⟩
    ⟨.ok r, r, true⟩

/-- `__itruediv__` calls `__ifloordiv__` and then returns `self`. -/
def wm_itruediv (self : WizardMoney) (other : PyVal) : IPResult :=
  let r := wm_ifloordiv self other
  match r.ret with
  | .error e => ⟨.error e, r.recv, false⟩
  | .ok _ => ⟨.ok r.recv, r.recv, true⟩

/-- Receiver field state after `__imod__`, allowing a Python float in the
knuts field: `self._knuts = self.value % other` stores the raw remainder
with no `int()` (unlike `__mod__`), so a float divisor leaves a float
there.  Galleons and sickles are rebuilt from `0` by the floor divisions
of `convertToGalleons()` and always end with integral values, so they are
kept as integers. -/
structure WMStateF where
  galleonsI : Int
  sicklesI : Int
  knutsF : PyFloat
deriving DecidableEq, Repr

/-- `__imod__`, translated exactly: `self._knuts = self.value % other`
(the raw remainder, no `int()`; a failure there leaves the receiver
untouched), then `self._galleons = 0`, `self._sickles = 0`, and
`convertToGalleons()` runs on the possibly-float fields:
`sickles += knuts // 29` is the floor of the exact fraction `m / 29`,
`knuts %= 29` keeps the fractional part of the remainder, and the
sickle-to-galleon step stays integral.  The method raises nothing for a
non-whole float divisor - the receiver really is mutated - and returns
`self` (the `Bool` is the returned-object-is-receiver flag, always true
on success). -/
def wm_imod_fields (self : WizardMoney) (other : PyVal) :
    Except PyError (WMStateF × Bool) :=
  match pyMod (wmValue self) other with
  | .error e => .error e
  | .ok m =>
    let s1 := Int.fdiv m.num (KNUTS_PER_SICKLE * m.den)
    .ok (⟨Int.fdiv s1 SICKLES_PER_GALLEON, Int.fmod s1 SICKLES_PER_GALLEON,
      ⟨m.num - KNUTS_PER_SICKLE * s1 * m.den, m.den, m.den_nz⟩⟩, true)

/-- `__imod__` as an `IPResult` view with integer fields.  When the
remainder is integral this is the exact receiver state.  When it is not,
the source still succeeds - it stores the non-integral float remainder in
the knuts field and returns `self`; that state has no integer-field
representation, so this view marks the embedding gap with `unmodelled`
(not a Python exception) and reports the receiver's true integral
galleons and sickles together with the floor of its fractional knuts; the
exact final state is the one computed by `wm_imod_fields`, and the `true`
flag records that the source does return the receiver there. -/
def wm_imod (self : WizardMoney) (other : PyVal) : IPResult :=
  match pyMod (wmValue self) other with
  | .error e => ⟨.error e, self, false⟩
  | .ok m =>
    if Int.emod m.num m.den == 0 then
      let r := convertToGalleons ⟨0, 0, Int.tdiv m.num m.den⟩
      ⟨.ok r, r, true⟩
    else
      let s1 := Int.fdiv m.num (KNUTS_PER_SICKLE * m.den)
      ⟨.error (.unmodelled "non-integral float remainder stored in knuts"),
        ⟨Int.fdiv s1 SICKLES_PER_GALLEON, Int.fmod s1 SICKLES_PER_GALLEON,
          Int.fdiv (m.num - KNUTS_PER_SICKLE * s1 * m.den) m.den⟩, true⟩

/-- `__ipow__`: `self._knuts = int(self.value ** other)` is computed
first (a failure there leaves the receiver untouched), then galleons and
sickles are zeroed and the object normalizes itself.  There is no operand
type check, so bad operands fail inside the power computation. -/
def wm_ipow (self : WizardMoney) (other : PyVal) : IPResult :=
  match pyPow (wmValue self) other with
  | .error e => ⟨.error e, self, false⟩
  | .ok p =>
    let r := convertToGalleons ⟨0, 0, p⟩
    ⟨.ok r, r, true⟩

/-! ### Helper lemmas -/

theorem wmValue_asKnuts (w : WizardMoney) : wmValue (asKnuts w) = wmValue w := by
  simp only [asKnuts, wmValue]
  ring

theorem wmValue_asSickles (w : WizardMoney) : wmValue (asSickles w) = wmValue w := by
  have h1 := Int.fdiv_add_fmod w.knuts 29
  simp only [asSickles, wmValue, KNUTS_PER_GALLEON, KNUTS_PER_SICKLE, SICKLES_PER_GALLEON]
  omega

theorem wmValue_asGalleons (w : WizardMoney) : wmValue (asGalleons w) = wmValue w := by
  have h1 := Int.fdiv_add_fmod w.knuts 29
  have h2 := Int.fdiv_add_fmod (w.sickles + Int.fdiv w.knuts 29) 17
  simp only [asGalleons, wmValue, KNUTS_PER_GALLEON, KNUTS_PER_SICKLE, SICKLES_PER_GALLEON]
  omega

theorem wmValue_convertToGalleons (w : WizardMoney) :
    wmValue (convertToGalleons w) = wmValue w := by
  rw [convertToGalleons_eq_asGalleons]
  exact wmValue_asGalleons w

theorem asGalleons_bounds (w : WizardMoney) :
    0 ≤ (asGalleons w).sickles ∧ (asGalleons w).sickles < 17 ∧
    0 ≤ (asGalleons w).knuts ∧ (asGalleons w).knuts < 29 := by
  simp only [asGalleons, KNUTS_PER_SICKLE, SICKLES_PER_GALLEON]
  rw [Int.fmod_eq_emod _ (by decide : (0:Int) ≤ 17), Int.fmod_eq_emod _ (by decide : (0:Int) ≤ 29)]
  refine ⟨Int.emod_nonneg _ (by decide), Int.emod_lt_of_pos _ (by decide),
    Int.emod_nonneg _ (by decide), Int.emod_lt_of_pos _ (by decide)⟩

theorem asGalleons_eq_self (w : WizardMoney) (h1 : 0 ≤ w.sickles) (h2 : w.sickles < 17)
    (h3 : 0 ≤ w.knuts) (h4 : w.knuts < 29) : asGalleons w = w := by
  have e1 : Int.fdiv w.knuts 29 = 0 := by
    rw [Int.fdiv_eq_ediv _ (by decide)]
    exact Int.ediv_eq_zero_of_lt h3 h4
  have e2 : Int.fmod w.knuts 29 = w.knuts := by
    rw [Int.fmod_eq_emod _ (by decide)]
    exact Int.emod_eq_of_lt h3 h4
  have e3 : Int.fdiv w.sickles 17 = 0 := by
    rw [Int.fdiv_eq_ediv _ (by decide)]
    exact Int.ediv_eq_zero_of_lt h1 h2
  have e4 : Int.fmod w.sickles 17 = w.sickles := by
    rw [Int.fmod_eq_emod _ (by decide)]
    exact Int.emod_eq_of_lt h1 h2
  simp [asGalleons, KNUTS_PER_SICKLE, SICKLES_PER_GALLEON, e1, e2, e3, e4]

/-! ### The claims -/

/-- C1: for every amount, each of the three conversions, in both the pure
form (`asKnuts`/`asSickles`/`asGalleons`) and the in-place form
(`convertToKnuts`/`convertToSickles`/`convertToGalleons`), yields an
amount whose derived `value` equals the value of the original. -/
theorem C1_conversions_preserve_value (w : WizardMoney) :
    wmValue (asKnuts w) = wmValue w ∧ wmValue (asSickles w) = wmValue w ∧
    wmValue (asGalleons w) = wmValue w ∧ wmValue (convertToKnuts w) = wmValue w ∧
    wmValue (convertToSickles w) = wmValue w ∧ wmValue (convertToGalleons w) = wmValue w :=
  ⟨wmValue_asKnuts w, wmValue_asSickles w, wmValue_asGalleons w,
    wmValue_asKnuts w, wmValue_asSickles w, wmValue_convertToGalleons w⟩

/-- C2 (evidence for the code bug): 29 knuts and 1 sickle have the same
derived `value` but are distinct field records - and since the class
defines no `__eq__`, Python compares these two distinct objects by
identity and reports them unequal, contradicting the claim and the
module's own docstring. -/
theorem C2_equal_value_distinct_objects :
    wmValue ⟨0, 0, 29⟩ = wmValue ⟨0, 1, 0⟩ ∧ (⟨0, 0, 29⟩ : WizardMoney) ≠ ⟨0, 1, 0⟩ := by
  decide

/-- C9: normalization to galleons is idempotent on the fields, for the
pure form and the in-place form. -/
theorem C9_toGalleons_idempotent (w : WizardMoney) :
    asGalleons (asGalleons w) = asGalleons w ∧
    convertToGalleons (convertToGalleons w) = convertToGalleons w := by
  obtain ⟨h1, h2, h3, h4⟩ := asGalleons_bounds w
  rw [convertToGalleons_eq_asGalleons, convertToGalleons_eq_asGalleons]
  exact ⟨asGalleons_eq_self _ h1 h2 h3 h4, asGalleons_eq_self _ h1 h2 h3 h4⟩

/-- C10: for every amount, with arbitrary signed fields, the result of
`asGalleons`/`convertToGalleons` has `0 <= sickles < 17` and
`0 <= knuts < 29`; only the galleons field can be negative. -/
theorem C10_normalized_remainder_bounds (w : WizardMoney) :
    (0 ≤ (asGalleons w).sickles ∧ (asGalleons w).sickles < SICKLES_PER_GALLEON ∧
      0 ≤ (asGalleons w).knuts ∧ (asGalleons w).knuts < KNUTS_PER_SICKLE) ∧
    (0 ≤ (convertToGalleons w).sickles ∧
      (convertToGalleons w).sickles < SICKLES_PER_GALLEON ∧
      0 ≤ (convertToGalleons w).knuts ∧ (convertToGalleons w).knuts < KNUTS_PER_SICKLE) := by
  rw [convertToGalleons_eq_asGalleons]
  obtain ⟨h1, h2, h3, h4⟩ := asGalleons_bounds w
  exact ⟨⟨h1, h2, h3, h4⟩, ⟨h1, h2, h3, h4⟩⟩

/-- The condition under which the `parse` loop raises for a piece: the
piece ends in `g`/`s`/`k` but the rest is not a valid integer, or it does
not end in `g`/`s`/`k` and is not itself a valid integer. -/
def pieceMalformed (q : List Char) : Bool :=
  if endsGSK q then (pyInt? q.dropLast).isNone else (pyInt? q).isNone

theorem parsePiece_err_of_malformed (q : List Char) (h : pieceMalformed q = true) :
    ∃ m, parsePiece q = .error (.valueError m) := by
  unfold pieceMalformed at h
  unfold parsePiece
  by_cases he : endsGSK q = true
  · rw [if_pos he] at h ⊢
    rw [Option.isNone_iff_eq_none] at h
    rw [h]
    exact ⟨_, rfl⟩
  · rw [if_neg he] at h ⊢
    rw [Option.isNone_iff_eq_none] at h
    rw [h]
    exact ⟨_, rfl⟩

theorem parsePiece_ok_of_not_malformed (q : List Char) (h : pieceMalformed q = false) :
    ∃ u n, parsePiece q = .ok (u, n) := by
  unfold pieceMalformed at h
  unfold parsePiece
  by_cases he : endsGSK q = true
  · rw [if_pos he] at h ⊢
    rw [Option.isNone_eq_false_iff, Option.isSome_iff_exists] at h
    obtain ⟨n, hn⟩ := h
    rw [hn]
    exact ⟨_, _, rfl⟩
  · rw [if_neg he] at h ⊢
    rw [Option.isNone_eq_false_iff, Option.isSome_iff_exists] at h
    obtain ⟨n, hn⟩ := h
    rw [hn]
    exact ⟨_, _, rfl⟩

theorem parseLoop_err_of_malformed (l : List (List Char)) (g s k : Int)
    (h : ∃ q ∈ l, pieceMalformed q = true) :
    ∃ m, parseLoop l g s k = .error (.valueError m) := by
  induction l generalizing g s k with
  | nil => simp at h
  | cons q rest ih =>
    by_cases hq : pieceMalformed q = true
    · obtain ⟨m, hm⟩ := parsePiece_err_of_malformed q hq
      exact ⟨m, by rw [parseLoop, hm]⟩
    · obtain ⟨u, n, hun⟩ := parsePiece_ok_of_not_malformed q (by simpa using hq)
      have hrest : ∃ p ∈ rest, pieceMalformed p = true := by
        obtain ⟨p, hp, hpm⟩ := h
        rcases List.mem_cons.mp hp with hpe | hpr
        · exact absurd (hpe ▸ hpm) hq
        · exact ⟨p, hpr, hpm⟩
      obtain ⟨m, hm⟩ := ih _ _ _ hrest
      exact ⟨m, by rw [parseLoop, hun]; exact hm⟩

/-- C3 counterexample: the parser rejects `"5x"` with the generic
`ValueError` class, not a distinct `FormatError` class - the source
defines no such class. -/
theorem C3_counterexample :
    errCls (parsePy (.strV "5x".data)) = some PyErrCls.valueError ∧
    errCls (parsePy (.strV "5x".data)) ≠ some PyErrCls.formatError := by
  decide

/-- C3 as amended: for every textual input containing a piece whose
numeric portion is not a valid integer, or whose trailing character is not
`g`/`s`/`k` while the whole piece is not purely numeric, the parser fails
with the generic built-in `ValueError` (no distinct error class for
malformed quantity strings exists in the code). -/
theorem C3_amended_malformed_piece_raises (s : List Char)
    (h : ∃ q ∈ pieces s, pieceMalformed q = true) :
    ∃ m, parsePy (.strV s) = .error (.valueError m) :=
  parseLoop_err_of_malformed (pieces s) 0 0 0 h

theorem C3_amended_witness :
    (∃ q ∈ pieces "5x".data, pieceMalformed q = true) ∧
    (∃ m, parsePy (.strV "5x".data) = .error (.valueError m)) :=
  ⟨by decide, C3_amended_malformed_piece_raises "5x".data (by decide)⟩

/-- Refinement target, following the spec's words for fractional
multiplication: take the amount's total value in knuts, multiply it by
the fractional scalar (exactly), truncate the product to an integer knut
count, then normalize to largest denominations. -/
def specFracMul (a : WizardMoney) (f : PyFloat) : WizardMoney :=
  asGalleons ⟨0, 0, Int.tdiv (wmValue a * f.num) f.den⟩

/-- Componentwise scaling of the three fields, each truncated - what the
whole-number multiplication branch does, and what the claim says the
fractional product is *not*. -/
def componentwiseScaleF (a : WizardMoney) (f : PyFloat) : WizardMoney :=
  ⟨Int.tdiv (a.galleons * f.num) f.den, Int.tdiv (a.sickles * f.num) f.den,
    Int.tdiv (a.knuts * f.num) f.den⟩

/-- C4: for every amount and every non-whole float scalar, the product is
the amount's total value multiplied by the scalar, truncated to a knut
count, and normalized to largest denominations; and it is not (in
general) the componentwise scaling of the three fields, witnessed at
`(1, 0, 0) * 1.5`. -/
theorem C4_fractional_multiply_is_value_based :
    (∀ (a : WizardMoney) (f : PyFloat), f.isWhole = false →
      wm_mul a (.floatV f) = .ok (specFracMul a f)) ∧
    wm_mul ⟨1, 0, 0⟩ (.floatV ⟨3, 2, by decide⟩) ≠
      .ok (componentwiseScaleF ⟨1, 0, 0⟩ ⟨3, 2, by decide⟩) := by
  constructor
  · intro a f hf
    simp [wm_mul, hf, specFracMul, truncMulF, ← convertToGalleons_eq_asGalleons]
  · decide

theorem C4_witness :
    (⟨47, 20, by decide⟩ : PyFloat).isWhole = false ∧
    wm_mul ⟨1, 25, 35⟩ (.floatV ⟨47, 20, by decide⟩) =
      .ok (specFracMul ⟨1, 25, 35⟩ ⟨47, 20, by decide⟩) :=
  ⟨by decide,
    C4_fractional_multiply_is_value_based.1 ⟨1, 25, 35⟩ ⟨47, 20, by decide⟩ (by decide)⟩

/-- C5 counterexample: multiplying by an operand that is not a number,
not text, and not a WizardMoney fails with the `ValueError` class (the
source raises `ValueError` there), not a `TypeError`-class error. -/
theorem C5_counterexample :
    errCls (wm_mul ⟨1, 2, 3⟩ (.objV 0)) = some PyErrCls.valueError ∧
    errCls (wm_mul ⟨1, 2, 3⟩ (.objV 0)) ≠ some PyErrCls.typeError := by
  decide

/-- C5 as amended: for an operand that is not a number, not text, and not
a WizardMoney, the add/subtract family fails with `NameError` (its check
raises the undefined name `TypeException`); multiplication, floor/true
division, and non-in-place power validate explicitly but raise
`ValueError`; modulo and the in-place modulo/power/floor-division have no
explicit check and fail with the `TypeError` the computation itself
raises. -/
theorem C5_amended_invalid_operand_error_classes (a : WizardMoney) (i : Nat) :
    errCls (wm_add a (.objV i)) = some PyErrCls.nameError ∧
    errCls (wm_sub a (.objV i)) = some PyErrCls.nameError ∧
    errCls (wm_iadd a (.objV i)).ret = some PyErrCls.nameError ∧
    errCls (wm_isub a (.objV i)).ret = some PyErrCls.nameError ∧
    errCls (wm_mul a (.objV i)) = some PyErrCls.valueError ∧
    errCls (wm_imul a (.objV i)).ret = some PyErrCls.valueError ∧
    errCls (wm_floordiv a (.objV i)) = some PyErrCls.valueError ∧
    errCls (wm_truediv a (.objV i)) = some PyErrCls.valueError ∧
    errCls (wm_pow a (.objV i)) = some PyErrCls.valueError ∧
    errCls (wm_mod a (.objV i)) = some PyErrCls.typeError ∧
    errCls (wm_imod a (.objV i)).ret = some PyErrCls.typeError ∧
    errCls (wm_ipow a (.objV i)).ret = some PyErrCls.typeError ∧
    errCls (wm_ifloordiv a (.objV i)).ret = some PyErrCls.typeError ∧
    errCls (wm_itruediv a (.objV i)).ret = some PyErrCls.typeError :=
  ⟨rfl, rfl, rfl, rfl, rfl, rfl, rfl, rfl, rfl, rfl, rfl, rfl, rfl, rfl⟩

/-- C8: for every amount `a` and nonzero integer `d`, `divmod(a, d)`
succeeds with `(q, r)`, and the reconstruction `q * d + r` has derived
value equal to `a`'s. -/
theorem C8_divmod_round_trip (a : WizardMoney) (d : Int) (hd : d ≠ 0) :
    ∃ q r m t, wm_divmod a (.intV d) = .ok (q, r) ∧
      wm_mul q (.intV d) = .ok m ∧ wm_add m (.wmV r) = .ok t ∧
      wmValue t = wmValue a := by
  have hq : wm_floordiv a (.intV d) =
      .ok (convertToGalleons ⟨0, 0, Int.fdiv (wmValue a) d⟩) := by
    simp [wm_floordiv, pyFloorDiv, hd]
  have hr : wm_mod a (.intV d) =
      .ok (convertToGalleons ⟨0, 0, Int.fmod (wmValue a) d⟩) := by
    simp [wm_mod, pyMod, hd, truncF]
  set q := convertToGalleons ⟨0, 0, Int.fdiv (wmValue a) d⟩ with hqdef
  set r := convertToGalleons ⟨0, 0, Int.fmod (wmValue a) d⟩ with hrdef
  have h1 : wmValue q = Int.fdiv (wmValue a) d := by
    rw [hqdef, wmValue_convertToGalleons]
    simp [wmValue]
  have h2 : wmValue r = Int.fmod (wmValue a) d := by
    rw [hrdef, wmValue_convertToGalleons]
    simp [wmValue]
  refine ⟨q, r, ⟨q.galleons * d, q.sickles * d, q.knuts * d⟩,
    ⟨r.galleons + q.galleons * d, r.sickles + q.sickles * d, r.knuts + q.knuts * d⟩,
    ?_, rfl, rfl, ?_⟩
  · simp [wm_divmod, hq, hr]
  · have hadd : wmValue ⟨r.galleons + q.galleons * d, r.sickles + q.sickles * d,
        r.knuts + q.knuts * d⟩ = wmValue r + wmValue q * d := by
      simp only [wmValue]
      ring
    rw [hadd, h1, h2]
    linear_combination Int.fdiv_add_fmod (wmValue a) d

theorem C8_witness :
    (13 : Int) ≠ 0 ∧
    (∃ q r m t, wm_divmod ⟨2, 5, 10⟩ (.intV 13) = .ok (q, r) ∧
      wm_mul q (.intV 13) = .ok m ∧ wm_add m (.wmV r) = .ok t ∧
      wmValue t = wmValue ⟨2, 5, 10⟩) :=
  ⟨by decide, C8_divmod_round_trip ⟨2, 5, 10⟩ 13 (by decide)⟩

/-- C6 counterexample: in-place floor division of (2, 4, 6) by zero fails
only after zeroing galleons and sickles - the receiver is left as
(0, 0, 6), not unchanged. -/
theorem C6_counterexample :
    failsModelled (wm_ifloordiv ⟨2, 4, 6⟩ (.intV 0)) = true ∧
    (wm_ifloordiv ⟨2, 4, 6⟩ (.intV 0)).recv = ⟨0, 0, 6⟩ ∧
    (wm_ifloordiv ⟨2, 4, 6⟩ (.intV 0)).recv ≠ ⟨2, 4, 6⟩ := by
  decide

/-- C6 as amended: every failing in-place operation leaves the receiver's
three fields unchanged, except in-place floor division (and in-place true
division, which delegates to it): those zero galleons and sickles and keep
the old knuts before the failure is raised. -/
theorem C6_amended_failed_inplace_receiver_state (a : WizardMoney) (v : PyVal) :
    (failsModelled (wm_iadd a v) = true → (wm_iadd a v).recv = a) ∧
    (failsModelled (wm_isub a v) = true → (wm_isub a v).recv = a) ∧
    (failsModelled (wm_imul a v) = true → (wm_imul a v).recv = a) ∧
    (failsModelled (wm_imod a v) = true → (wm_imod a v).recv = a) ∧
    (failsModelled (wm_ipow a v) = true → (wm_ipow a v).recv = a) ∧
    (failsModelled (wm_ifloordiv a v) = true → (wm_ifloordiv a v).recv = ⟨0, 0, a.knuts⟩) ∧
    (failsModelled (wm_itruediv a v) = true → (wm_itruediv a v).recv = ⟨0, 0, a.knuts⟩) := by
  refine ⟨?_, ?_, ?_, ?_, ?_, ?_, ?_⟩
  · intro h
    unfold wm_iadd at h ⊢
    cases hc : coerceToWM v <;> simp [hc, failsModelled] at h ⊢
  · intro h
    unfold wm_isub at h ⊢
    cases hc : coerceToWM v <;> simp [hc, failsModelled] at h ⊢
  · intro h
    unfold wm_imul at h ⊢
    cases v with
    | intV n => simp [failsModelled] at h
    | floatV f =>
      by_cases hw : f.isWhole = true
      · simp [hw, failsModelled] at h
      · simp only [Bool.not_eq_true] at hw
        simp [hw, failsModelled] at h
    | strV s => rfl
    | wmV w => rfl
    | objV i => rfl
  · intro h
    unfold wm_imod at h ⊢
    cases hm : pyMod (wmValue a) v with
    | error e => rfl
    | ok m =>
      rw [hm] at h
      by_cases hz : Int.emod m.num m.den = 0 <;> simp [hz, failsModelled, PyError.cls] at h
  · intro h
    unfold wm_ipow at h ⊢
    cases hp : pyPow (wmValue a) v with
    | error e => rfl
    | ok p => simp [hp, failsModelled] at h
  · intro h
    unfold wm_ifloordiv at h ⊢
    cases hd : pyFloorDiv (wmValue a) v with
    | error e => rfl
    | ok n => simp [hd, failsModelled] at h
  · intro h
    unfold wm_itruediv wm_ifloordiv at h ⊢
    cases hd : pyFloorDiv (wmValue a) v with
    | error e => simp [hd]
    | ok n => simp [hd, failsModelled] at h

theorem C6_amended_witness :
    (wm_iadd ⟨1, 2, 3⟩ (.objV 0)).recv = ⟨1, 2, 3⟩ ∧
    (wm_ifloordiv ⟨7, 8, 9⟩ (.intV 0)).recv = ⟨0, 0, 9⟩ :=
  ⟨(C6_amended_failed_inplace_receiver_state ⟨1, 2, 3⟩ (.objV 0)).1 (by decide),
   (C6_amended_failed_inplace_receiver_state ⟨7, 8, 9⟩ (.intV 0)).2.2.2.2.2.1 (by decide)⟩

theorem ifloordiv_of_floordiv_ok (a : WizardMoney) (v : PyVal) (r : WizardMoney)
    (h : wm_floordiv a v = .ok r) : wm_ifloordiv a v = ⟨.ok r, r, true⟩ := by
  unfold wm_floordiv at h
  unfold wm_ifloordiv
  cases v with
  | intV n =>
    cases hfd : pyFloorDiv (wmValue a) (.intV n) with
    | error e => rw [hfd] at h; simp at h
    | ok m =>
      rw [hfd] at h
      simp only [Except.ok.injEq] at h
      subst h
      rfl
  | floatV f =>
    cases hfd : pyFloorDiv (wmValue a) (.floatV f) with
    | error e => rw [hfd] at h; simp at h
    | ok m =>
      rw [hfd] at h
      simp only [Except.ok.injEq] at h
      subst h
      rfl
  | strV s => simp at h
  | wmV w => simp at h
  | objV i => simp at h

theorem emod_sub_mul_cancel (x c d : Int) :
    Int.emod (x - c * d) d = Int.emod x d := by
  have e1 : x - c * d = x + (-c) * d := by ring
  rw [e1]
  exact Int.add_mul_emod_self

theorem ne_mul_of_emod_ne_zero {x d : Int} (h : Int.emod x d ≠ 0) (z : Int) :
    x ≠ z * d := fun he => h (by rw [he]; exact Int.mul_emod_left z d)

/-- C7 counterexample: two compound forms violate the claim.  `*=` with
the fractional scalar 1.5 on (1, 0, 0) computes the same result as `*`
but returns a fresh instance and leaves the receiver unchanged; and `%=`
with the non-whole float divisor 2.5 on (0, 0, 4) diverges from `%`: the
pure form truncates the remainder 1.5 through the constructor and yields
(0, 0, 1), while the in-place form stores the raw remainder 3/2 in the
knuts field (galleons and sickles 0) and returns the mutated receiver. -/
theorem C7_counterexample :
    wm_mul ⟨1, 0, 0⟩ (.floatV ⟨3, 2, by decide⟩) = .ok ⟨1, 8, 14⟩ ∧
    (wm_imul ⟨1, 0, 0⟩ (.floatV ⟨3, 2, by decide⟩)).retIsRecv = false ∧
    (wm_imul ⟨1, 0, 0⟩ (.floatV ⟨3, 2, by decide⟩)).recv = ⟨1, 0, 0⟩ ∧
    wm_mod ⟨0, 0, 4⟩ (.floatV ⟨5, 2, by decide⟩) = .ok ⟨0, 0, 1⟩ ∧
    wm_imod_fields ⟨0, 0, 4⟩ (.floatV ⟨5, 2, by decide⟩) =
      .ok (⟨0, 0, ⟨3, 2, by decide⟩⟩, true) := by
  decide

/-- C7 as amended: on success, each compound-assignment form computes the
same result as its non-mutating counterpart, updates the receiver's
fields to that result, and returns the receiver itself - with two
exceptions.  (1) `*=` with a fractional (non-whole) float scalar computes
the same result as `*` but returns it as a fresh instance, leaving the
receiver unchanged.  (2) `%=` with a non-whole float divisor mutates the
receiver and returns it, but stores the raw float remainder in the knuts
field without the `int()` truncation that `%` applies: the final two
conjuncts show, over the exact state `wm_imod_fields`, that the operation
succeeds returning the receiver, and that whenever the remainder is
non-integral the stored knuts is non-integral and therefore differs from
every integer knut count, so the receiver state differs from the `%`
result.  (`**=` with a non-integral float exponent computes an irrational
power, outside this exact embedding, and is covered vacuously.) -/
theorem C7_amended_inplace_matches_counterpart :
    (∀ (a : WizardMoney) (v : PyVal) (r : WizardMoney),
      wm_add a v = .ok r → wm_iadd a v = ⟨.ok r, r, true⟩) ∧
    (∀ (a : WizardMoney) (v : PyVal) (r : WizardMoney),
      wm_sub a v = .ok r → wm_isub a v = ⟨.ok r, r, true⟩) ∧
    (∀ (a : WizardMoney) (n : Int) (r : WizardMoney),
      wm_mul a (.intV n) = .ok r → wm_imul a (.intV n) = ⟨.ok r, r, true⟩) ∧
    (∀ (a : WizardMoney) (f : PyFloat) (r : WizardMoney), f.isWhole = true →
      wm_mul a (.floatV f) = .ok r → wm_imul a (.floatV f) = ⟨.ok r, r, true⟩) ∧
    (∀ (a : WizardMoney) (f : PyFloat) (r : WizardMoney), f.isWhole = false →
      wm_mul a (.floatV f) = .ok r → wm_imul a (.floatV f) = ⟨.ok r, a, false⟩) ∧
    (∀ (a : WizardMoney) (v : PyVal) (r : WizardMoney),
      wm_floordiv a v = .ok r → wm_ifloordiv a v = ⟨.ok r, r, true⟩) ∧
    (∀ (a : WizardMoney) (v : PyVal) (r : WizardMoney),
      wm_truediv a v = .ok r → wm_itruediv a v = ⟨.ok r, r, true⟩) ∧
    (∀ (a : WizardMoney) (n : Int) (r : WizardMoney),
      wm_mod a (.intV n) = .ok r → wm_imod a (.intV n) = ⟨.ok r, r, true⟩) ∧
    (∀ (a : WizardMoney) (f : PyFloat) (r : WizardMoney), f.isWhole = true →
      wm_mod a (.floatV f) = .ok r → wm_imod a (.floatV f) = ⟨.ok r, r, true⟩) ∧
    (∀ (a : WizardMoney) (v : PyVal) (r : WizardMoney),
      wm_pow a v = .ok r → wm_ipow a v = ⟨.ok r, r, true⟩) ∧
    (∀ (a : WizardMoney) (f : PyFloat), f.isZero = false →
      ∃ st, wm_imod_fields a (.floatV f) = .ok (st, true)) ∧
    (∀ (a : WizardMoney) (f m : PyFloat) (st : WMStateF),
      pyMod (wmValue a) (.floatV f) = .ok m → Int.emod m.num m.den ≠ 0 →
      wm_imod_fields a (.floatV f) = .ok (st, true) →
      Int.emod st.knutsF.num st.knutsF.den ≠ 0 ∧
        ∀ z : Int, st.knutsF.num ≠ z * st.knutsF.den) := by
  refine ⟨?_, ?_, ?_, ?_, ?_, ifloordiv_of_floordiv_ok, ?_, ?_, ?_, ?_, ?_, ?_⟩
  · intro a v r h
    unfold wm_add at h
    unfold wm_iadd
    cases hc : coerceToWM v with
    | error e => rw [hc] at h; simp at h
    | ok o =>
      rw [hc] at h
      simp only [Except.ok.injEq] at h
      subst h
      simp [WizardMoney.mk.injEq, IPResult.mk.injEq, Int.add_comm]
  · intro a v r h
    unfold wm_sub at h
    unfold wm_isub
    cases hc : coerceToWM v with
    | error e => rw [hc] at h; simp at h
    | ok o =>
      rw [hc] at h
      simp only [Except.ok.injEq] at h
      subst h
      rfl
  · intro a n r h
    simp only [wm_mul, Except.ok.injEq] at h
    subst h
    rfl
  · intro a f r hf h
    simp only [wm_mul, hf, if_true, Except.ok.injEq] at h
    subst h
    simp [wm_imul, hf]
  · intro a f r hf h
    simp only [wm_mul, hf, Bool.false_eq_true, if_false, Except.ok.injEq] at h
    subst h
    simp [wm_imul, hf]
  · intro a v r h
    have h2 := ifloordiv_of_floordiv_ok a v r h
    unfold wm_itruediv
    rw [h2]
  · intro a n r h
    by_cases hn : n = 0
    · simp [wm_mod, pyMod, hn] at h
    · simp only [wm_mod, pyMod, hn, if_false, truncF, Int.tdiv_one, Except.ok.injEq] at h
      subst h
      have he1 : Int.emod (Int.fmod (wmValue a) n) 1 = 0 := Int.emod_one _
      simp [wm_imod, pyMod, hn, he1, Int.tdiv_one]
  · intro a f r hf h
    by_cases hz : f.isZero = true
    · simp [wm_mod, pyMod, hz] at h
    · simp only [Bool.not_eq_true] at hz
      have hmod0 : Int.emod f.num f.den = 0 := by
        simpa [PyFloat.isWhole] using hf
      have hdvd : f.den ∣ f.num := Int.dvd_of_emod_eq_zero hmod0
      have hdvd2 : f.den ∣
          (wmValue a * f.den - f.num * Int.fdiv (wmValue a * f.den) f.num) :=
        dvd_sub (dvd_mul_left f.den (wmValue a)) (hdvd.mul_right _)
      have hz2 : Int.emod
          (wmValue a * f.den - f.num * Int.fdiv (wmValue a * f.den) f.num) f.den = 0 :=
        Int.emod_eq_zero_of_dvd hdvd2
      simp only [wm_mod, pyMod, hz, Bool.false_eq_true, if_false, truncF,
        Except.ok.injEq] at h
      subst h
      simp [wm_imod, pyMod, hz, hz2]
  · intro a v r h
    unfold wm_pow at h
    unfold wm_ipow
    cases v with
    | intV n =>
      cases hp : pyPow (wmValue a) (.intV n) with
      | error e => rw [hp] at h; simp at h
      | ok p =>
        rw [hp] at h
        simp only [Except.ok.injEq] at h
        subst h
        rfl
    | floatV f =>
      cases hp : pyPow (wmValue a) (.floatV f) with
      | error e => rw [hp] at h; simp at h
      | ok p =>
        rw [hp] at h
        simp only [Except.ok.injEq] at h
        subst h
        rfl
    | strV s => simp at h
    | wmV w => simp at h
    | objV i => simp at h
  · intro a f hz
    cases hp : pyMod (wmValue a) (.floatV f) with
    | error e => simp [pyMod, hz] at hp
    | ok m =>
      refine ⟨⟨Int.fdiv (Int.fdiv m.num (KNUTS_PER_SICKLE * m.den)) SICKLES_PER_GALLEON,
        Int.fmod (Int.fdiv m.num (KNUTS_PER_SICKLE * m.den)) SICKLES_PER_GALLEON,
        ⟨m.num - KNUTS_PER_SICKLE * Int.fdiv m.num (KNUTS_PER_SICKLE * m.den) * m.den,
          m.den, m.den_nz⟩⟩, ?_⟩
      unfold wm_imod_fields
      rw [hp]
  · intro a f m st hm hnint hst
    by_cases hz : f.isZero = true
    · simp [pyMod, hz] at hm
    · simp only [Bool.not_eq_true] at hz
      simp only [wm_imod_fields, hm, Except.ok.injEq, Prod.mk.injEq, and_true] at hst
      subst hst
      refine ⟨?_, ?_⟩
      · simpa only [emod_sub_mul_cancel] using hnint
      · intro z
        exact ne_mul_of_emod_ne_zero (by simpa only [emod_sub_mul_cancel] using hnint) z

theorem C7_amended_witness :
    wm_iadd ⟨1, 2, 3⟩ (.intV 5) = ⟨.ok ⟨1, 2, 8⟩, ⟨1, 2, 8⟩, true⟩ ∧
    wm_imul ⟨1, 0, 0⟩ (.floatV ⟨3, 2, by decide⟩) =
      ⟨.ok ⟨1, 8, 14⟩, ⟨1, 0, 0⟩, false⟩ ∧
    wm_imod ⟨2, 5, 10⟩ (.intV 13) = ⟨.ok ⟨0, 0, 10⟩, ⟨0, 0, 10⟩, true⟩ ∧
    (Int.emod (3 : Int) 2 ≠ 0 ∧ ∀ z : Int, (3 : Int) ≠ z * 2) :=
  ⟨C7_amended_inplace_matches_counterpart.1 ⟨1, 2, 3⟩ (.intV 5) ⟨1, 2, 8⟩ (by decide),
   C7_amended_inplace_matches_counterpart.2.2.2.2.1 ⟨1, 0, 0⟩ ⟨3, 2, by decide⟩
     ⟨1, 8, 14⟩ (by decide) (by decide),
   C7_amended_inplace_matches_counterpart.2.2.2.2.2.2.2.1 ⟨2, 5, 10⟩ 13
     ⟨0, 0, 10⟩ (by decide),
   C7_amended_inplace_matches_counterpart.2.2.2.2.2.2.2.2.2.2.2 ⟨0, 0, 4⟩
     ⟨5, 2, by decide⟩ ⟨3, 2, by decide⟩ ⟨0, 0, ⟨3, 2, by decide⟩⟩
     (by decide) (by decide) (by decide)⟩
